import Mathlib

/-!
Verification of the output-parsing and data-normalization layer of the
MSSM electroweak spectrum generator (`generator/data.py`, `generator/config.py`,
`generator/main.py`).

The Python code extracts numeric quantities from free-form calculator reports
with `re` patterns and re-encodes them into SLHA data blocks.  We embed the
concrete regular expressions used by the code as character-level scanners over
`List Char`, embed `float()` conversion as exact-rational parsing
(IEEE-754 rounding is abstracted to exact `ℚ` values; none of the verified
properties depend on rounding), and embed fatal failures (`exit(1)`,
uncaught `ValueError` / `ZeroDivisionError` / `KeyError`) as `Except` errors.
All reports emitted by the external calculators are ASCII, so the Python
character classes `\s`, `\d`, `\w` and `str.upper()` are modelled on ASCII.
-/

set_option maxRecDepth 8000

deriving instance DecidableEq for Except

namespace MSSMGen

/-- Python `\s` (ASCII range): space, tab, newline, carriage return,
vertical tab, form feed. -/
def pySpace (c : Char) : Bool :=
  c = ' ' || c = '\t' || c = '\n' || c = '\r' || c = '\x0b' || c = '\x0c'

/-- Python `\d` (ASCII range). -/
def pyDigit (c : Char) : Bool := '0' ≤ c && c ≤ '9'

/-- ASCII letter. -/
def pyAlpha (c : Char) : Bool := ('a' ≤ c && c ≤ 'z') || ('A' ≤ c && c ≤ 'Z')

/-- Python `\w` (ASCII range): letter, digit or underscore. -/
def pyWord (c : Char) : Bool := pyAlpha c || pyDigit c || c = '_'

/-- `str.strip()`: remove leading and trailing whitespace. -/
def stripWs (s : List Char) : List Char :=
  ((s.dropWhile pySpace).reverse.dropWhile pySpace).reverse

/-- Python `str.split("\n")`: split on every newline; no empty-part removal. -/
def splitLines : List Char → List (List Char)
  | [] => [[]]
  | c :: rest =>
    match splitLines rest with
    | [] => [[]]
    | l :: ls => if c = '\n' then [] :: l :: ls else (c :: l) :: ls

/-- Maximal digit run: `(\d*, rest)`. -/
def digitsRun (s : List Char) : List Char × List Char :=
  (s.takeWhile pyDigit, s.dropWhile pyDigit)

/-- Optional sign `[-+]?`. -/
def signOpt (s : List Char) : List Char × List Char :=
  match s with
  | c :: r => if c = '-' || c = '+' then ([c], r) else ([], s)
  | [] => ([], s)

/-- Match a literal token at the head of the input, returning the rest. -/
def dropLit : List Char → List Char → Option (List Char)
  | [], s => some s
  | c :: cs, d :: ds => if d = c then dropLit cs ds else none
  | _ :: _, [] => none

/-- Regex `\s+`: at least one whitespace character, then the maximal run.
In every pattern below `\s+`/`\s*` is followed by a token that cannot begin
with whitespace, so the greedy run needs no backtracking. -/
def ws1 (s : List Char) : Option (List Char) :=
  match s with
  | c :: rest => if pySpace c then some (rest.dropWhile pySpace) else none
  | [] => none

/-- Mantissa alternation `(?:\d*\.\d+|\d+)` with the regex's preference
order: the fractional form is tried first, then a bare digit run.
Returns (matched characters, rest). -/
def mmMantissa (s : List Char) : Option (List Char × List Char) :=
  let (d1, r1) := digitsRun s
  match r1 with
  | '.' :: r2 =>
    let (d2, r3) := digitsRun r2
    if d2 ≠ [] then some (d1 ++ '.' :: d2, r3)
    else if d1 ≠ [] then some (d1, r1) else none
  | _ => if d1 ≠ [] then some (d1, r1) else none

/-- Optional exponent `(?:[eEdD][-+]?\d+)?` (marker letters given as a
parameter).  If the marker is present but no digits follow, the optional
group matches empty, as the regex backtracks to. -/
def expOpt (letters : List Char) (s : List Char) : List Char × List Char :=
  match s with
  | c :: r1 =>
    if letters.contains c then
      let (sg, r2) := signOpt r1
      let (d, r3) := digitsRun r2
      if d ≠ [] then (c :: (sg ++ d), r3) else ([], s)
    else ([], s)
  | [] => ([], s)

/-- `MicromegasOutput.NUM`: `([-+]?(?:\d*\.\d+|\d+)(?:[eEdD][-+]?\d+)?)`.
In the patterns that use it, NUM is always followed by `\s+`, a literal, or
the end of the pattern; any shorter (backtracked) NUM match would end on a
digit, a dot or an exponent letter, so the greedy scan is exact. -/
def mmNum (s : List Char) : Option (List Char × List Char) := do
  let (sg, r1) := signOpt s
  let (m, r2) ← mmMantissa r1
  let (e, r3) := expOpt ['e', 'E', 'd', 'D'] r2
  some (sg ++ m ++ e, r3)

/-- `GM2CalcOutput.NUM`: `([-+]?(?:\d*\.\d+|\d+)[eE][-+]?\d+)` —
the exponent is mandatory and restricted to `e`/`E`. -/
def gm2Num (s : List Char) : Option (List Char × List Char) := do
  let (sg, r1) := signOpt s
  let (m, r2) ← mmMantissa r1
  match r2 with
  | c :: r3 =>
    if c = 'e' || c = 'E' then
      let (sg2, r4) := signOpt r3
      let (d, r5) := digitsRun r4
      if d ≠ [] then some (sg ++ m ++ c :: (sg2 ++ d), r5) else none
    else none
  | [] => none

/-- Numeric value of a digit run. -/
def digitsVal (ds : List Char) : Nat :=
  ds.foldl (fun a c => 10 * a + (c.toNat - '0'.toNat)) 0

/-- Embedded Python runtime failures that abort the run:
`exit(1)` after a fatal log message, an uncaught `ValueError` from
`float()`, an uncaught `ZeroDivisionError`, or an uncaught `KeyError`. -/
inductive PyError
  | systemExit (code : Nat) (msg : String)
  | valueError (arg : List Char)
  | zeroDivision
  | keyError (k : String)
deriving DecidableEq, Repr

/-- The exact rational value of a decimal literal with sign `sgNeg`,
integer-part digits `ip`, fractional digits `fp` and decimal exponent
`ex`, built with `mkRat` over integer arithmetic (which, unlike the
field operations of `ℚ`, evaluates inside the kernel; `ratScaled_eq`
below identifies it with the usual field expression). -/
def ratScaled (sgNeg : Bool) (ip fp : List Char) (ex : Int) : ℚ :=
  let m : Nat := digitsVal (ip ++ fp)
  let net : Int := ex - fp.length
  let n : Int := if sgNeg then -(m : Int) else (m : Int)
  if 0 ≤ net then mkRat (n * (10 : Int) ^ net.toNat) 1
  else mkRat n ((10 : Nat) ^ (-net).toNat)

/-- Python `float(str)` on the strings producible by the NUM patterns:
optional surrounding whitespace, optional sign, digits with an optional
decimal point, and an optional exponent introduced by `e`/`E` only
(`d`/`D` Fortran markers are NOT accepted by `float()` and raise
`ValueError`).  The IEEE-754 result is abstracted to the exact rational
the literal denotes. -/
def pyfloat (s : List Char) : Option ℚ := do
  let t := stripWs s
  let (sg, r1) := signOpt t
  let (ip, r2) := digitsRun r1
  let (fp, r3) ←
    match r2 with
    | '.' :: r =>
      let (f, r') := digitsRun r
      if ip = [] && f = [] then none else some (f, r')
    | _ => if ip = [] then none else some (([] : List Char), r2)
  let (ex, r4) ←
    match r3 with
    | c :: r =>
      if c = 'e' || c = 'E' then
        let (s2, r') := signOpt r
        let (d, r'') := digitsRun r'
        if d = [] then none
        else some ((if s2 = ['-'] then -(digitsVal d : Int) else (digitsVal d : Int)), r'')
      else none
    | [] => some ((0 : Int), r3)
  if r4 ≠ [] then none
  else some (ratScaled (sg = ['-']) ip fp ex)

/-- `float(s)` as used by the parsers: an unconvertible string raises
`ValueError` and kills the run. -/
def floatE (s : List Char) : Except PyError ℚ :=
  match pyfloat s with
  | some q => .ok q
  | none => .error (.valueError s)

/-- Exact rational addition written with `mkRat` over integer arithmetic
(kernel-reducible; `ratAdd_eq` below proves it is `+` on `ℚ`). -/
def ratAdd (a b : ℚ) : ℚ :=
  mkRat (a.num * b.den + b.num * a.den) (a.den * b.den)

/-- Exact rational subtraction written with `mkRat` (`ratSub_eq` below
proves it is `-` on `ℚ`). -/
def ratSub (a b : ℚ) : ℚ :=
  mkRat (a.num * b.den - b.num * a.den) (a.den * b.den)

/-- Exact rational division written with `mkRat` (`ratDiv_eq` below
proves it is `/` on `ℚ`, with the `0` divisor giving `0`). -/
def ratDiv (a b : ℚ) : ℚ :=
  if 0 ≤ b.num then mkRat (a.num * b.den) (a.den * b.num.toNat)
  else mkRat (-(a.num * b.den)) (a.den * (-b.num).toNat)

/-- Python `/` on floats: raises `ZeroDivisionError` on a zero divisor,
otherwise exact division (rounding abstracted away). -/
def pydiv (a b : ℚ) : Except PyError ℚ :=
  if b = 0 then .error .zeroDivision else .ok (ratDiv a b)

/-- `re.findall` driver for an anchored matcher `M` that tries the pattern
at the head of its input: scan positions left to right, on failure advance
one character, on success record the groups and resume right after the
match.  Every pattern embedded here consumes at least one character on
success, so fuel `s.length + 1` never runs out before the scan ends. -/
def findallFuel (M : List Char → Option (α × List Char)) :
    Nat → List Char → List α
  | 0, _ => []
  | fuel + 1, s =>
    match M s with
    | some (a, rest) => a :: findallFuel M fuel rest
    | none =>
      match s with
      | [] => []
      | _ :: t => findallFuel M fuel t

/-- `PATTERN.findall(s)`. -/
def reFindall (M : List Char → Option (α × List Char)) (s : List Char) : List α :=
  findallFuel M (s.length + 1) s

/-- `SI\s+NUM\s+SD\s+NUM` preceded by a leading token and `\s+`: the shared
tail of `RE_PROTON` and `RE_NEUTRON` (`"\s+".join([tok, "SI", NUM, "SD", NUM])`).
Returns the two captured numbers and the rest of the input. -/
def siSdAt (tok : List Char) (s : List Char) : Option ((List Char × List Char) × List Char) := do
  let r1 ← dropLit tok s
  let r2 ← ws1 r1
  let r3 ← dropLit ("SI".data) r2
  let r4 ← ws1 r3
  let (n1, r5) ← mmNum r4
  let r6 ← ws1 r5
  let r7 ← dropLit ("SD".data) r6
  let r8 ← ws1 r7
  let (n2, r9) ← mmNum r8
  some ((n1, n2), r9)

/-- `MicromegasOutput.RE_PROTON`: `proton\s+SI\s+NUM\s+SD\s+NUM`, tried at
the current position. -/
def matchProtonAt (s : List Char) : Option ((List Char × List Char) × List Char) :=
  siSdAt ("proton".data) s

/-- `MicromegasOutput.RE_NEUTRON`: `neutron\s+SI\s+NUM\s+SD\s+NUM`. -/
def matchNeutronAt (s : List Char) : Option ((List Char × List Char) × List Char) :=
  siSdAt ("neutron".data) s

/-- `.*` within the current line (`.` does not match a newline):
(consumed line remainder, rest starting at the newline or at the end). -/
def lineSpan (s : List Char) : List Char × List Char :=
  (s.takeWhile (· ≠ '\n'), s.dropWhile (· ≠ '\n'))

/-- Characters after the LAST `'\n'` of a list, or `none` if it has no
newline. -/
def splitAtLastNL : List Char → Option (List Char)
  | [] => none
  | c :: rest =>
    match splitAtLastNL rest with
    | some t => some t
    | none => if c = '\n' then some rest else none

/-- The `$\s+^` part of `RE_OMEGA` under `re.M`: starting at a line end,
consume at least one whitespace character such that the consumed run ends
immediately after a `'\n'` (where `^` holds).  The regex engine prefers the
longest `\s+`, i.e. the position after the LAST newline of the maximal
whitespace run; shorter candidates end after an earlier newline, and the
text from there to the following newline is whitespace-only, so the
`^.*Omega` continuation can never succeed on them — the longest candidate
is the only one that can complete the match. -/
def wsToLastNL (s : List Char) : Option (List Char) :=
  let run := s.takeWhile pySpace
  let rest := s.dropWhile pySpace
  match splitAtLastNL run with
  | some tailWs => some (tailWs ++ rest)
  | none => none

/-- The `\s*=\s*NUM` continuation after the literal `Omega` (both `\s*`
may cross newlines; `=` and NUM cannot begin with whitespace, so the
greedy runs are exact). -/
def omegaAssign (s : List Char) : Option (List Char × List Char) := do
  let r1 := s.dropWhile pySpace
  let r2 ← dropLit ['='] r1
  let r3 := r2.dropWhile pySpace
  mmNum r3

/-- The `.*Omega\s*=\s*NUM` continuation on the line the match landed on:
greedy `.*` makes the engine prefer the RIGHTMOST occurrence of `Omega`
(necessarily before the next newline) whose continuation succeeds, so we
first recurse into the tail and only then try the current position. -/
def omegaOnLine : List Char → Option (List Char × List Char)
  | [] => none
  | c :: rest =>
    if c = '\n' then none
    else
      match omegaOnLine rest with
      | some r => some r
      | none => do
        let r1 ← dropLit ("Omega".data) (c :: rest)
        omegaAssign r1

/-- `MicromegasOutput.RE_OMEGA` (`re.M`):
`relic density.*$\s+^.*Omega\s*=\s*NUM` tried at the current position:
the literal `relic density`, the rest of that line (`.*$` is forced to the
line end, the only place `$` holds), then `$\s+^` and the Omega line. -/
def matchOmegaAt (s : List Char) : Option (List Char × List Char) :=
  match dropLit ("relic density".data) s with
  | none => none
  | some r1 =>
    match wsToLastNL (lineSpan r1).2 with
    | none => none
    | some r3 => omegaOnLine r3

/-- `check_result(title, match)` (`generator/data.py`): an empty match list
logs `Cannot find {title} in micrOMEGAs output.` and calls `exit(1)`
(the source hardcodes "micrOMEGAs" in this message even though the function
is also used for GM2Calc output); more than one match returns the first
together with a warning; exactly one match returns it silently. -/
def check_result (title : String) : List α → Except PyError (α × Option String)
  | [] => .error (.systemExit 1 ("Cannot find " ++ title ++ " in micrOMEGAs output."))
  | [x] => .ok (x, none)
  | x :: _ :: _ => .ok (x, some ("Multiple " ++ title ++ " found in output; first is used."))

/-- The dict returned by `MicromegasOutput.parse_output`. -/
structure MicromegasRecord where
  omega_h2 : ℚ
  proton_si : ℚ
  proton_sd : ℚ
  neutron_si : ℚ
  neutron_sd : ℚ
deriving DecidableEq, Repr

/-- An SLHA data block as built by `to_slha_block` via `yaslha.block.Block`:
name, header comment, integer-indexed entries and per-entry comments in
assignment order. -/
structure Block where
  name : String
  head_comment : String
  entries : List (Nat × ℚ)
  comments : List (Nat × String)
deriving DecidableEq, Repr

namespace MicromegasOutput

/-- `MicromegasOutput.parse_output`: the three `findall`/`check_result`
extractions (note the source passes the title `"proton"` for the NEUTRON
check as well), then `float()` conversion of the five captured strings in
the order of the dict literal.  Warnings from `check_result` are collected
in order. -/
def parse_output (output : List Char) :
    Except PyError (MicromegasRecord × List String) := do
  let (omega, w1) ← check_result "omega_DM" (reFindall matchOmegaAt output)
  let (proton, w2) ← check_result "proton" (reFindall matchProtonAt output)
  let (neutron, w3) ← check_result "proton" (reFindall matchNeutronAt output)
  let o ← floatE omega
  let psi ← floatE proton.1
  let psd ← floatE proton.2
  let nsi ← floatE neutron.1
  let nsd ← floatE neutron.2
  .ok (⟨o, psi, psd, nsi, nsd⟩, w1.toList ++ w2.toList ++ w3.toList)

/-- `MicromegasOutput.to_slha_block`: block named `block_name`
(default `"DM"`), entries 1..5 in assignment order with their comments. -/
def to_slha_block (r : MicromegasRecord) (block_name : String := "DM") : Block :=
  { name := block_name
    head_comment := "calculated by micrOMEGAs"
    entries := [(1, r.omega_h2), (2, r.proton_si), (3, r.proton_sd),
                (4, r.neutron_si), (5, r.neutron_sd)]
    comments := [(1, "OmegaDM h^2"), (2, "proton SI [pb]"), (3, "proton SD [pb]"),
                 (4, "neutron SI [pb]"), (5, "neutron SD [pb]")] }

end MicromegasOutput

/-- `GM2CalcOutput.RE_2L`:
`amu \(1-loop \+ 2-loop best\)\s*=\s*NUM\s*\+-\s*NUM` tried at the current
position (NUM is the mandatory-exponent GM2 form). -/
def match2LAt (s : List Char) : Option ((List Char × List Char) × List Char) := do
  let r1 ← dropLit ("amu (1-loop + 2-loop best)".data) s
  let r2 := r1.dropWhile pySpace
  let r3 ← dropLit ['='] r2
  let r4 := r3.dropWhile pySpace
  let (n1, r5) ← gm2Num r4
  let r6 := r5.dropWhile pySpace
  let r7 ← dropLit ("+-".data) r6
  let r8 := r7.dropWhile pySpace
  let (n2, r9) ← gm2Num r8
  some ((n1, n2), r9)

/-- `GM2CalcOutput.RE_START_WITH_ALPHA_NUM.match(line)`: `^\w` — the line's
first character is a word character (letter, digit or underscore). -/
def startsSection (line : List Char) : Bool :=
  match line with
  | [] => false
  | c :: _ => pyWord c

/-- The section name assigned on a section-start line:
`re.sub(r"[^A-Z0-9 ]", "", line.strip().upper())`. -/
def sectionName (line : List Char) : String :=
  String.mk (((stripWs line).map Char.toUpper).filter
    (fun c => ('A' ≤ c && c ≤ 'Z') || pyDigit c || c = ' '))

/-- `GM2CalcOutput.RE_NUM_LINE.match(line)`: `^\s*NUM` — leading whitespace
then a GM2 number; trailing text is not constrained.  Returns the captured
number. -/
def matchNumLine (line : List Char) : Option (List Char) := do
  let (n, _) ← gm2Num (line.dropWhile pySpace)
  some n

/-- The lazy group of `RE_NORMAL_LINE` starting at a given position: the
SHORTEST nonempty prefix (`(.+?)`) followed by `\s+` and a GM2 number, the
engine preferring to stop the group before growing it. -/
def normalFrom : List Char → Option (List Char × List Char)
  | [] => none
  | c :: rest =>
    match (do let r1 ← ws1 rest; gm2Num r1 : Option (List Char × List Char)) with
    | some (n, _) => some ([c], n)
    | none => (normalFrom rest).map (fun (g, n) => (c :: g, n))

/-- `GM2CalcOutput.RE_NORMAL_LINE.match(line)`: `^\s*(.+?)\s+NUM`.
The greedy `^\s*` is tried longest-first, so the group normally starts at
the first non-whitespace character; if no match exists from there, the
engine backtracks `\s*` and can make the group a single whitespace
character — that succeeds exactly when the number directly follows a
leading whitespace run of length ≥ 2 (e.g. `"  2e3"` yields
group(1) = `" "`). -/
def matchNormalLine (line : List Char) : Option (List Char × List Char) :=
  match normalFrom (line.dropWhile pySpace) with
  | some r => some r
  | none =>
    match (line.takeWhile pySpace).reverse with
    | _ :: w2 :: _ => (gm2Num (line.dropWhile pySpace)).map (fun (n, _) => ([w2], n))
    | _ => none

/-- First-match association lookup (Python `dict[key]` up to ordering). -/
def findA (k : String) : List (String × β) → Option β
  | [] => none
  | (k', v) :: rest => if k' = k then some v else findA k rest

/-- Association update with Python `dict` assignment semantics: replace the
value in place if the key is present, append otherwise. -/
def updAssoc (k : String) (v : β) : List (String × β) → List (String × β)
  | [] => [(k, v)]
  | (k', v') :: rest =>
    if k' = k then (k, v) :: rest else (k', v') :: updAssoc k v rest

/-- The parsed section dictionaries: section name → (label → value). -/
abbrev Blocks := List (String × List (String × ℚ))

/-- `blocks[tag][key] = v`: modify the (present) section of the current
tag.  The parse loop only writes through a tag it has just created, so the
missing-tag case cannot arise; it is modelled as a no-op. -/
def setEntry (tag k : String) (v : ℚ) : Blocks → Blocks
  | [] => []
  | (t, d) :: rest =>
    if t = tag then (t, updAssoc k v d) :: rest else (t, d) :: setEntry tag k v rest

/-- State of the section-collection loop of `GM2CalcOutput.parse_output`:
the current tag (initially the falsy `""`) and the collected blocks. -/
structure GMSt where
  tag : String
  blocks : Blocks
deriving DecidableEq, Repr

/-- One iteration of the section-collection loop:
a `^\w` line starts a new (empty) section; otherwise, inside a section
(`tag` non-empty), `RE_NUM_LINE` stores the number under the sentinel
`"NO KEY"`, else `RE_NORMAL_LINE` stores it under the label; any other
line — or any line before the first section — contributes nothing.
`float()` failure would raise (it cannot, as every GM2 NUM is `e`/`E`
formed, but the raise path is modelled). -/
def stepLine (st : GMSt) (line : List Char) : Except PyError GMSt :=
  if startsSection line then
    let t := sectionName line
    .ok ⟨t, updAssoc t [] st.blocks⟩
  else if st.tag ≠ "" then
    match matchNumLine line with
    | some n => do
      let v ← floatE n
      .ok ⟨st.tag, setEntry st.tag "NO KEY" v st.blocks⟩
    | none =>
      match matchNormalLine line with
      | some (lbl, n) => do
        let v ← floatE n
        .ok ⟨st.tag, setEntry st.tag (String.mk lbl) v st.blocks⟩
      | none => .ok st
  else .ok st

/-- The whole `for line in output.split("\n")` loop. -/
def runLines (ls : List (List Char)) (st : GMSt) : Except PyError GMSt :=
  ls.foldlM stepLine st

/-- The section dictionaries collected from a GM2Calc report. -/
def collectBlocks (output : List Char) : Except PyError Blocks :=
  (runLines (splitLines output) ⟨"", []⟩).map (·.blocks)

/-- What a non-section line offers to the current section, before float
conversion: the priority-ordered `elif` tests of the loop — `RE_NUM_LINE`
stored under the sentinel `"NO KEY"`, else `RE_NORMAL_LINE` stored under
its label, else nothing. -/
def lineEntry? (line : List Char) : Option (String × List Char) :=
  match matchNumLine line with
  | some n => some ("NO KEY", n)
  | none =>
    match matchNormalLine line with
    | some (lbl, n) => some (String.mk lbl, n)
    | none => none

/-- The `(key, value)` pair a non-section line stores in the current
section, when its captured number converts. -/
def lineEntryV (line : List Char) : Option (String × ℚ) :=
  match lineEntry? line with
  | some (k, n) =>
    match pyfloat n with
    | some v => some (k, v)
    | none => none
  | none => none

/-- `blocks[tag][key]` with `KeyError` on either missing key. -/
def getKey (bl : Blocks) (tag k : String) : Except PyError ℚ :=
  match findA tag bl with
  | none => .error (.keyError tag)
  | some d =>
    match findA k d with
    | none => .error (.keyError k)
    | some v => .ok v

/-- `blocks[tag][key]` as a plain optional lookup (used to state claims). -/
def sectionVal (bl : Blocks) (tag k : String) : Option ℚ :=
  (findA tag bl).bind (findA k)

/-- The result dict of `GM2CalcOutput.parse_output`; field names encode the
string keys `"1L+2L"`, `"1L+2L_unc"`, `"1L"`, `"1L_no_resum"`, `"WHN"`,
`"WHL"`, `"BHL"`, `"BHR"`, `"BLR"`, `"2L"`, `"2L_no_resum"`,
`"2L_photonic"`, `"2L_fermion"`, `"2L_a"`, `"1L+2L_no_resum"`,
`"delta_mu"` in insertion order. -/
structure GM2Record where
  amu_1L2L : ℚ
  amu_1L2L_unc : ℚ
  amu_1L : ℚ
  amu_1L_no_resum : ℚ
  whn : ℚ
  whl : ℚ
  bhl : ℚ
  bhr : ℚ
  blr : ℚ
  amu_2L : ℚ
  amu_2L_no_resum : ℚ
  amu_2L_photonic : ℚ
  amu_2L_fermion : ℚ
  amu_2L_a : ℚ
  amu_1L2L_no_resum : ℚ
  delta_mu : ℚ
deriving DecidableEq, Repr

namespace GM2CalcOutput

/-- `GM2CalcOutput.parse_output`: the best-value line through
`check_result`, the section-collection loop, the fixed lookup table (each
miss is a fatal `KeyError`), the derived sum
`1L+2L_no_resum = 1L_no_resum + 2L_no_resum`, and
`delta_mu = 1 / (tb_cor / 1L_no_resum + 1) - 1` in exactly that operation
order (each `/` may raise `ZeroDivisionError`). -/
def parse_output (output : List Char) :
    Except PyError (GM2Record × List String) := do
  let (best, w1) ← check_result "1L+2L" (reFindall match2LAt output)
  let bl ← collectBlocks output
  let v12 ← floatE best.1
  let v12u ← floatE best.2
  let a1L ← getKey bl "FULL 1L WITH TANBETA RESUMMATION" "sum"
  let a1Lnr ← getKey bl "FULL 1L WITHOUT TANBETA RESUMMATION" "NO KEY"
  let vwhn ← getKey bl "1L APPROXIMATION WITH TANBETA RESUMMATION" "W-H-nu"
  let vwhl ← getKey bl "1L APPROXIMATION WITH TANBETA RESUMMATION" "W-H-muL"
  let vbhl ← getKey bl "1L APPROXIMATION WITH TANBETA RESUMMATION" "B-H-muL"
  let vbhr ← getKey bl "1L APPROXIMATION WITH TANBETA RESUMMATION" "B-H-muR"
  let vblr ← getKey bl "1L APPROXIMATION WITH TANBETA RESUMMATION" "B-muL-muR"
  let a2L ← getKey bl "2L BEST WITH TANBETA RESUMMATION" "NO KEY"
  let a2Lnr ← getKey bl "2L BEST WITHOUT TANBETA RESUMMATION" "NO KEY"
  let a2Lph ← getKey bl "PHOTONIC WITH TANBETA RESUMMATION" "sum"
  let a2Lf ← getKey bl "FERMIONSFERMION APPROXIMATION WITH TANBETA RESUMMATION" "sum"
  let a2La ← getKey bl "2LA 1L INSERTIONS INTO 1L SM DIAGRAM WITH TANBETA RESUMMATION" "sum"
  let tb ← getKey bl "TANBETA CORRECTION" "amu(1L) * (1 / (1 + Delta_mu) - 1) ="
  let q1 ← pydiv tb a1Lnr
  let q2 ← pydiv 1 (ratAdd q1 1)
  .ok (⟨v12, v12u, a1L, a1Lnr, vwhn, vwhl, vbhl, vbhr, vblr, a2L, a2Lnr,
        a2Lph, a2Lf, a2La, ratAdd a1Lnr a2Lnr, ratSub q2 1⟩, w1.toList)

end GM2CalcOutput

/-- What an external process did: its exit code and its streamed stdout
(`Config.run_process` reads the stream to completion before checking the
code). -/
structure ExtProc where
  returncode : Int
  stdout : List Char
deriving DecidableEq, Repr

/-- Messages surfaced through `logger` by `run_process` on failure. -/
inductive LogEntry
  | errorL (msg : String)
  | infoL (msg : String)
deriving DecidableEq, Repr

/-- Driver termination as observed from outside: the operating-system exit
status of the driver process and the log entries emitted on the way out. -/
structure DriverExit where
  status : Nat
  logs : List LogEntry
deriving DecidableEq, Repr

/-- `Config.run_process` (`generator/config.py`): on a non-zero child exit
code it logs the code, logs `process.__dict__` (the `Popen` attribute
dict — NOT the buffered output lines), and calls the bare `exit()`.
Python's `exit()` with no argument raises `SystemExit(None)`, which
terminates the interpreter with exit status 0. -/
def run_process (p : ExtProc) : Except DriverExit (Int × List Char) :=
  if p.returncode ≠ 0 then
    .error ⟨0, [.errorL ("Run failed with exit code " ++ toString p.returncode ++ "."),
                .infoL "process.__dict__"]⟩
  else .ok (p.returncode, p.stdout)

/-- The driver (`main.run` plus the `Config.run_*` helpers) as the sequence
of `run_process` invocations it makes, one per external-tool stage, each
stage's invocation happening only after every earlier one returned
successfully; the in-between file shuffling is elided.  The result is the
list of captured stdouts of the stages that ran. -/
def runPipeline : List ExtProc → Except DriverExit (List (List Char))
  | [] => .ok []
  | p :: rest => do
    let (_, out) ← run_process p
    let outs ← runPipeline rest
    .ok (out :: outs)

/-! ### Concrete report fixtures -/

/-- The stub relic-density report of the specification's end-to-end scenario. -/
def stubRelicReport : List Char :=
  ("relic density\nOmega = 1.23e-01\nproton SI 4.5e-9 SD 6.7e-10\nneutron SI 8.9e-9 SD 1.0e-9\n").data

/-- A relic-density report whose Omega value uses a Fortran `d` exponent. -/
def dNotationReport : List Char :=
  ("relic density\nOmega = 1.23d-01\nproton SI 4.5e-9 SD 6.7e-10\nneutron SI 8.9e-9 SD 1.0e-9\n").data

/-- A relic-density report with no neutron line. -/
def noNeutronReport : List Char :=
  ("relic density\nOmega = 1.23e-01\nproton SI 4.5e-9 SD 6.7e-10\n").data

/-- A magnetic-moment report with no `amu (1-loop + 2-loop best)` line. -/
def noAmuReport : List Char :=
  ("unrelated GM2Calc banner text\n").data

/-- A relic-density report with two distinct `Omega = <num>` occurrences. -/
def doubleOmegaReport : List Char :=
  ("relic density\nOmega = 1.0e-1\nrelic density\nOmega = 2.0e-1\n" ++
   "proton SI 4.5e-9 SD 6.7e-10\nneutron SI 8.9e-9 SD 1.0e-9\n").data

/-- A complete magnetic-moment report containing every section and label
the fixed lookup table of `GM2CalcOutput.parse_output` needs, with a
NEGATIVE un-resummed one-loop value. -/
def gm2StubReport : List Char :=
  ("amu (1-loop + 2-loop best) = 2.5e-9 +- 3.0e-10\n" ++
   "full 1L with tanbeta resummation\n" ++
   "   sum   1.0e-9\n" ++
   "full 1L without tanbeta resummation\n" ++
   "   -2.0e-10\n" ++
   "1L approximation with tanbeta resummation\n" ++
   "   W-H-nu    1.1e-10\n" ++
   "   W-H-muL   1.2e-10\n" ++
   "   B-H-muL   1.3e-10\n" ++
   "   B-H-muR   1.4e-10\n" ++
   "   B-muL-muR 1.5e-10\n" ++
   "2L best with tanbeta resummation\n" ++
   "   2.1e-11\n" ++
   "2L best without tanbeta resummation\n" ++
   "   2.2e-11\n" ++
   "photonic with tanbeta resummation\n" ++
   "   sum   2.3e-11\n" ++
   "fermion/sfermion approximation with tanbeta resummation\n" ++
   "   sum   2.4e-11\n" ++
   "2L(a) 1L insertions into 1L SM diagram with tanbeta resummation\n" ++
   "   sum   2.5e-11\n" ++
   "tanbeta correction\n" ++
   "   amu(1L) * (1 / (1 + Delta_mu) - 1) =   -5.0e-10\n").data

/-- The record parsed from `gm2StubReport`. -/
def gm2StubRecord : GM2Record :=
  ⟨mkRat 25 10000000000, mkRat 3 10000000000, mkRat 1 1000000000,
   mkRat (-2) 10000000000, mkRat 11 100000000000, mkRat 12 100000000000,
   mkRat 13 100000000000, mkRat 14 100000000000, mkRat 15 100000000000,
   mkRat 21 1000000000000, mkRat 22 1000000000000, mkRat 23 1000000000000,
   mkRat 24 1000000000000, mkRat 25 1000000000000,
   mkRat (-178) 1000000000000, mkRat (-5) 7⟩

/-- The section dictionaries collected from `gm2StubReport`. -/
def gm2StubBlocks : Blocks :=
  [("AMU 1LOOP  2LOOP BEST  25E9  30E10", []),
   ("FULL 1L WITH TANBETA RESUMMATION", [("sum", mkRat 1 1000000000)]),
   ("FULL 1L WITHOUT TANBETA RESUMMATION", [("NO KEY", mkRat (-2) 10000000000)]),
   ("1L APPROXIMATION WITH TANBETA RESUMMATION",
     [("W-H-nu", mkRat 11 100000000000), ("W-H-muL", mkRat 12 100000000000),
      ("B-H-muL", mkRat 13 100000000000), ("B-H-muR", mkRat 14 100000000000),
      ("B-muL-muR", mkRat 15 100000000000)]),
   ("2L BEST WITH TANBETA RESUMMATION", [("NO KEY", mkRat 21 1000000000000)]),
   ("2L BEST WITHOUT TANBETA RESUMMATION", [("NO KEY", mkRat 22 1000000000000)]),
   ("PHOTONIC WITH TANBETA RESUMMATION", [("sum", mkRat 23 1000000000000)]),
   ("FERMIONSFERMION APPROXIMATION WITH TANBETA RESUMMATION",
     [("sum", mkRat 24 1000000000000)]),
   ("2LA 1L INSERTIONS INTO 1L SM DIAGRAM WITH TANBETA RESUMMATION",
     [("sum", mkRat 25 1000000000000)]),
   ("TANBETA CORRECTION",
     [("amu(1L) * (1 / (1 + Delta_mu) - 1) =", mkRat (-5) 10000000000)])]

/-! ### Helper lemmas -/

/-- `mkRat` is plain division on `ℚ`. -/
lemma mkRat_eq_q (n : ℤ) (d : ℕ) : mkRat n d = (n : ℚ) / (d : ℚ) := by
  rw [Rat.mkRat_eq_divInt, Rat.divInt_eq_div]
  norm_num

/-- The numerator of a rational, as the rational times its denominator. -/
lemma num_eq_self_mul_den (a : ℚ) : (a.num : ℚ) = a * (a.den : ℚ) := by
  have ha : ((a.den : ℚ)) ≠ 0 := Nat.cast_ne_zero.mpr a.den_nz
  exact (div_eq_iff ha).mp (Rat.num_div_den a)

/-- `ratAdd` is addition on `ℚ`. -/
lemma ratAdd_eq (a b : ℚ) : ratAdd a b = a + b := by
  rw [ratAdd, mkRat_eq_q]
  have ha : ((a.den : ℚ)) ≠ 0 := Nat.cast_ne_zero.mpr a.den_nz
  have hb : ((b.den : ℚ)) ≠ 0 := Nat.cast_ne_zero.mpr b.den_nz
  rw [div_eq_iff (by positivity)]
  push_cast
  rw [num_eq_self_mul_den a, num_eq_self_mul_den b]
  ring

/-- `ratSub` is subtraction on `ℚ`. -/
lemma ratSub_eq (a b : ℚ) : ratSub a b = a - b := by
  rw [ratSub, mkRat_eq_q]
  have ha : ((a.den : ℚ)) ≠ 0 := Nat.cast_ne_zero.mpr a.den_nz
  have hb : ((b.den : ℚ)) ≠ 0 := Nat.cast_ne_zero.mpr b.den_nz
  rw [div_eq_iff (by positivity)]
  push_cast
  rw [num_eq_self_mul_den a, num_eq_self_mul_den b]
  ring

/-- `ratDiv` is division on `ℚ` (both give `0` on a zero divisor). -/
lemma ratDiv_eq (a b : ℚ) : ratDiv a b = a / b := by
  rcases eq_or_ne b 0 with rfl | hb
  · simp [ratDiv]
  · have hbn : b.num ≠ 0 := Rat.num_ne_zero.mpr hb
    have ha : ((a.den : ℚ)) ≠ 0 := Nat.cast_ne_zero.mpr a.den_nz
    have hb' : ((b.den : ℚ)) ≠ 0 := Nat.cast_ne_zero.mpr b.den_nz
    have hbq : ((b.num : ℚ)) ≠ 0 := Int.cast_ne_zero.mpr hbn
    rw [ratDiv]
    rcases le_or_lt 0 b.num with h | h
    · have htn : ((b.num.toNat : ℕ) : ℚ) = (b.num : ℚ) := by
        exact_mod_cast congrArg (fun z : ℤ => (z : ℚ)) (Int.toNat_of_nonneg h)
      have hd : ((a.den * b.num.toNat : ℕ) : ℚ) ≠ 0 := by
        have h1 : b.num.toNat ≠ 0 := by omega
        have h2 : a.den ≠ 0 := a.den_nz
        exact_mod_cast Nat.mul_ne_zero h2 h1
      rw [if_pos h, mkRat_eq_q, div_eq_div_iff hd hb]
      push_cast
      rw [htn, num_eq_self_mul_den a, num_eq_self_mul_den b]
      ring
    · have htn : (((-b.num).toNat : ℕ) : ℚ) = -(b.num : ℚ) := by
        exact_mod_cast congrArg (fun z : ℤ => (z : ℚ))
          (Int.toNat_of_nonneg (by omega : (0:ℤ) ≤ -b.num))
      have hd : ((a.den * (-b.num).toNat : ℕ) : ℚ) ≠ 0 := by
        have h1 : (-b.num).toNat ≠ 0 := by omega
        have h2 : a.den ≠ 0 := a.den_nz
        exact_mod_cast Nat.mul_ne_zero h2 h1
      rw [if_neg (not_le.mpr h), mkRat_eq_q, div_eq_div_iff hd hb]
      push_cast
      rw [htn, num_eq_self_mul_den a, num_eq_self_mul_den b]
      ring

/-- `pydiv` succeeds exactly off zero divisors and computes division. -/
lemma pydiv_ok {a b q : ℚ} (h : pydiv a b = .ok q) : b ≠ 0 ∧ q = a / b := by
  by_cases hb : b = 0
  · rw [pydiv, if_pos hb] at h
    cases h
  · rw [pydiv, if_neg hb] at h
    cases h
    exact ⟨hb, (ratDiv_eq a b)⟩

/-- The `.*` of a line beginning with a newline consumes nothing. -/
lemma lineSpan_snd_nl (j : Nat) (t : List Char) :
    (lineSpan (List.replicate (j + 1) '\n' ++ t)).2 =
      List.replicate (j + 1) '\n' ++ t := by
  rw [List.replicate_succ, List.cons_append]
  unfold lineSpan
  rw [List.dropWhile_cons, if_neg (by decide)]

/-- The scan of the Omega pattern finds nothing in an empty text. -/
lemma findallFuel_omega_nil (fuel : Nat) :
    findallFuel matchOmegaAt fuel [] = [] := by
  cases fuel with
  | zero => rfl
  | succ n => rfl

/-- Inversion for a successful `Except` bind. -/
lemma exceptBind_ok {ε α β : Type _} {e : Except ε α} {f : α → Except ε β} {b : β}
    (h : e >>= f = .ok b) : ∃ a, e = .ok a ∧ f a = .ok b := by
  cases e with
  | error err => exact absurd h (by simp [Bind.bind, Except.bind])
  | ok a => exact ⟨a, rfl, by simpa [Bind.bind, Except.bind] using h⟩

/-- A literal prefix always drops from its own extension. -/
lemma dropLit_append (l s : List Char) : dropLit l (l ++ s) = some s := by
  induction l with
  | nil => rfl
  | cons c cs ih => simp [dropLit, ih]

/-- `takeWhile pySpace` over a block of newlines stops exactly at a tail
that starts with a non-space character. -/
lemma takeWhile_space_repl (j : Nat) (t : List Char)
    (h : t.takeWhile pySpace = []) :
    (List.replicate j '\n' ++ t).takeWhile pySpace = List.replicate j '\n' := by
  induction j with
  | zero => simpa using h
  | succ n ih =>
    rw [List.replicate_succ, List.cons_append, List.takeWhile_cons,
      if_pos (show pySpace '\n' = true from rfl), ih]

/-- `dropWhile pySpace` over a block of newlines just removes the block. -/
lemma dropWhile_space_repl (j : Nat) (t : List Char)
    (h : t.dropWhile pySpace = t) :
    (List.replicate j '\n' ++ t).dropWhile pySpace = t := by
  induction j with
  | zero => simpa using h
  | succ n ih =>
    rw [List.replicate_succ, List.cons_append, List.dropWhile_cons,
      if_pos (show pySpace '\n' = true from rfl), ih]

/-- The last newline of a pure newline block is its last character. -/
lemma splitAtLastNL_repl (j : Nat) :
    splitAtLastNL (List.replicate (j + 1) '\n') = some [] := by
  induction j with
  | zero => rfl
  | succ n ih =>
    rw [List.replicate_succ]
    unfold splitAtLastNL
    rw [ih]

/-- The `$\s+^` step across a nonempty block of newlines lands at the
line that follows it. -/
lemma wsToLastNL_repl (j : Nat) (t : List Char)
    (ht : t.takeWhile pySpace = []) (hd : t.dropWhile pySpace = t) :
    wsToLastNL (List.replicate (j + 1) '\n' ++ t) = some t := by
  unfold wsToLastNL
  rw [takeWhile_space_repl _ _ ht, dropWhile_space_repl _ _ hd]
  change (match splitAtLastNL (List.replicate (j + 1) '\n') with
    | some tailWs => some (tailWs ++ t)
    | none => none) = some t
  rw [splitAtLastNL_repl]
  simp

/-- The defining equation of the `findall` scan at positive fuel. -/
lemma findallFuel_succ {α : Type _} (M : List Char → Option (α × List Char))
    (fuel : Nat) (s : List Char) :
    findallFuel M (fuel + 1) s =
      match M s with
      | some (a, rest) => a :: findallFuel M fuel rest
      | none =>
        match s with
        | [] => []
        | _ :: t => findallFuel M fuel t := rfl

/-- A successful `floatE` is a successful `pyfloat`. -/
lemma floatE_ok {n : List Char} {v : ℚ} (h : floatE n = .ok v) :
    pyfloat n = some v := by
  unfold floatE at h
  cases hp : pyfloat n with
  | none => rw [hp] at h; cases h
  | some q => rw [hp] at h; injection h with h; rw [h]

/-- Updating a key makes it found with the new value. -/
lemma findA_updAssoc_self {β : Type _} (k : String) (v : β)
    (bl : List (String × β)) : findA k (updAssoc k v bl) = some v := by
  induction bl with
  | nil => simp [updAssoc, findA]
  | cons p rest ih =>
    obtain ⟨k', v'⟩ := p
    by_cases h : k' = k <;> simp [updAssoc, findA, h, ih]

/-- Updating one key does not change lookups of another. -/
lemma findA_updAssoc_ne {β : Type _} {k k' : String} (hne : k' ≠ k) (v : β)
    (bl : List (String × β)) : findA k (updAssoc k' v bl) = findA k bl := by
  induction bl with
  | nil => simp [updAssoc, findA, hne]
  | cons p rest ih =>
    obtain ⟨k'', v''⟩ := p
    by_cases h : k'' = k'
    · subst h
      simp [updAssoc, findA, hne]
    · by_cases h2 : k'' = k <;> simp [updAssoc, findA, h, h2, ih, Ne.symm hne]

/-- `setEntry` updates exactly the current tag's dictionary. -/
lemma setEntry_findA (tag k : String) (v : ℚ) (bl : Blocks)
    (d : List (String × ℚ)) (h : findA tag bl = some d) :
    findA tag (setEntry tag k v bl) = some (updAssoc k v d) := by
  induction bl with
  | nil => cases h
  | cons p rest ih =>
    obtain ⟨t, dd⟩ := p
    by_cases ht : t = tag
    · subst ht
      simp [findA] at h
      subst h
      simp [setEntry, findA]
    · simp [findA, ht] at h
      simp [setEntry, findA, ht]
      exact ih h

/-- A fold of updates over keys different from `k` leaves `k`'s lookup
unchanged. -/
lemma foldl_upd_skip (es : List (String × ℚ)) (d : List (String × ℚ))
    (k : String) (h : ∀ e ∈ es, e.1 ≠ k) :
    findA k (es.foldl (fun dd e => updAssoc e.1 e.2 dd) d) = findA k d := by
  induction es generalizing d with
  | nil => rfl
  | cons e rest ih =>
    simp only [List.foldl_cons]
    rw [ih _ (fun x hx => h x (by simp [hx]))]
    exact findA_updAssoc_ne (h e (by simp)) _ _

/-- Running the loop over section-free lines with a fixed non-empty tag
`T` keeps the tag and folds each line's entry into `T`'s dictionary in
order, assignments overwriting. -/
lemma runBody_section {T : String} (hT : T ≠ "") :
    ∀ (body : List (List Char)) (st : GMSt) (d : List (String × ℚ)) (stF : GMSt),
      st.tag = T → findA T st.blocks = some d →
      (∀ l ∈ body, startsSection l = false) →
      runLines body st = .ok stF →
      stF.tag = T ∧
      findA T stF.blocks =
        some ((body.filterMap lineEntryV).foldl (fun dd e => updAssoc e.1 e.2 dd) d)
  | [], st, d, stF, htag, hfind, _, hrun => by
    have h : st = stF := by
      have hrun' : (Except.ok st : Except PyError GMSt) = .ok stF := hrun
      injection hrun'
    subst h
    exact ⟨htag, by simpa using hfind⟩
  | l :: ls, st, d, stF, htag, hfind, hns, hrun => by
    have hns_l : startsSection l = false := hns l (by simp)
    obtain ⟨st1, hstep, hrun2⟩ := exceptBind_ok (f := fun st1 => runLines ls st1) hrun
    have htag' : st.tag ≠ "" := by rw [htag]; exact hT
    unfold stepLine at hstep
    rw [if_neg (by simp [hns_l]), if_pos htag'] at hstep
    cases hnum : matchNumLine l with
    | some n =>
      rw [hnum] at hstep
      obtain ⟨v, hv, hok⟩ := exceptBind_ok hstep
      have hok' : (⟨st.tag, setEntry st.tag "NO KEY" v st.blocks⟩ : GMSt) = st1 := by
        injection hok
      have hpf : pyfloat n = some v := floatE_ok hv
      have hev : lineEntryV l = some ("NO KEY", v) := by
        simp only [lineEntryV, lineEntry?, hnum, hpf]
      have hrec := runBody_section hT ls st1 (updAssoc "NO KEY" v d) stF
        (by rw [← hok']; exact htag)
        (by rw [← hok']
            show findA T (setEntry st.tag "NO KEY" v st.blocks) = _
            rw [htag]
            exact setEntry_findA T "NO KEY" v st.blocks d hfind)
        (fun x hx => hns x (by simp [hx])) hrun2
      refine ⟨hrec.1, ?_⟩
      rw [hrec.2, List.filterMap_cons, hev]
      simp
    | none =>
      cases hnl : matchNormalLine l with
      | some p =>
        obtain ⟨lbl, n⟩ := p
        rw [hnum, hnl] at hstep
        obtain ⟨v, hv, hok⟩ := exceptBind_ok hstep
        have hok' : (⟨st.tag, setEntry st.tag (String.mk lbl) v st.blocks⟩ : GMSt) = st1 := by
          injection hok
        have hpf : pyfloat n = some v := floatE_ok hv
        have hev : lineEntryV l = some (String.mk lbl, v) := by
          simp only [lineEntryV, lineEntry?, hnum, hnl, hpf]
        have hrec := runBody_section hT ls st1 (updAssoc (String.mk lbl) v d) stF
          (by rw [← hok']; exact htag)
          (by rw [← hok']
              show findA T (setEntry st.tag (String.mk lbl) v st.blocks) = _
              rw [htag]
              exact setEntry_findA T (String.mk lbl) v st.blocks d hfind)
          (fun x hx => hns x (by simp [hx])) hrun2
        refine ⟨hrec.1, ?_⟩
        rw [hrec.2, List.filterMap_cons, hev]
        simp
      | none =>
        rw [hnum, hnl] at hstep
        have hok' : st = st1 := by
          have hstep' : (Except.ok st : Except PyError GMSt) = .ok st1 := hstep
          injection hstep'
        have hev : lineEntryV l = none := by
          simp only [lineEntryV, lineEntry?, hnum, hnl]
        have hrec := runBody_section hT ls st1 d stF
          (by rw [← hok']; exact htag)
          (by rw [← hok']; exact hfind)
          (fun x hx => hns x (by simp [hx])) hrun2
        refine ⟨hrec.1, ?_⟩
        rw [hrec.2, List.filterMap_cons, hev]

/-- A successful `getKey` is a successful `sectionVal` lookup. -/
lemma getKey_ok {bl : Blocks} {tg k : String} {v : ℚ}
    (h : getKey bl tg k = .ok v) : sectionVal bl tg k = some v := by
  unfold getKey at h
  cases hf : findA tg bl with
  | none => rw [hf] at h; cases h
  | some d =>
    rw [hf] at h
    have h' : (match findA k d with
      | none => (Except.error (PyError.keyError k) : Except PyError ℚ)
      | some v => Except.ok v) = Except.ok v := h
    cases hg : findA k d with
    | none => rw [hg] at h'; cases h'
    | some v' =>
      rw [hg] at h'
      cases h'
      unfold sectionVal
      rw [hf]
      exact hg

/-- Inversion for a successful `Option` bind. -/
lemma optBind_some {α β : Type _} {e : Option α} {f : α → Option β} {b : β}
    (h : e >>= f = some b) : ∃ a, e = some a ∧ f a = some b := by
  cases e with
  | none => cases h
  | some a => exact ⟨a, rfl, h⟩

/-- Every number captured by the GM2Calc NUM pattern contains an explicit
`e` or `E` exponent marker. -/
lemma gm2Num_has_exp {s n r : List Char} (h : gm2Num s = some (n, r)) :
    'e' ∈ n ∨ 'E' ∈ n := by
  unfold gm2Num at h
  rcases hsg : signOpt s with ⟨sg, r1⟩
  simp only [hsg] at h
  cases hm : mmMantissa r1 with
  | none => simp [hm] at h
  | some p =>
    obtain ⟨m, r2⟩ := p
    simp only [hm, Option.bind_eq_bind, Option.some_bind] at h
    split at h
    · rename_i c r3
      by_cases hc : (c = 'e' || c = 'E') = true
      · rw [if_pos hc] at h
        rcases h2 : signOpt r3 with ⟨sg2, r4⟩
        simp only [h2] at h
        rcases h3 : digitsRun r4 with ⟨dd, r5⟩
        simp only [h3] at h
        by_cases hdd : dd ≠ []
        · rw [if_pos hdd] at h
          injection h with h
          have hn : n = sg ++ m ++ c :: (sg2 ++ dd) := (congrArg Prod.fst h).symm
          simp only [Bool.or_eq_true, decide_eq_true_eq] at hc
          rcases hc with rfl | rfl
          · exact Or.inl (by rw [hn]; simp)
          · exact Or.inr (by rw [hn]; simp)
        · rw [if_neg hdd] at h
          exact Option.noConfusion h
      · rw [if_neg hc] at h
        exact Option.noConfusion h
    · exact Option.noConfusion h

/-- The lazy-group scan of `RE_NORMAL_LINE` only ever captures a GM2Calc
NUM, so its number always carries an `e`/`E` exponent. -/
lemma normalFrom_has_exp :
    ∀ (l g n : List Char), normalFrom l = some (g, n) → 'e' ∈ n ∨ 'E' ∈ n
  | [], g, n, h => by cases h
  | c :: rest, g, n, h => by
    unfold normalFrom at h
    cases hx : (do
        let r1 ← ws1 rest
        gm2Num r1 : Option (List Char × List Char)) with
    | some p =>
      obtain ⟨n', r'⟩ := p
      rw [hx] at h
      injection h with h
      have hn : n = n' := (congrArg Prod.snd h).symm
      obtain ⟨r1, hw, hg⟩ := optBind_some hx
      rw [hn]
      exact gm2Num_has_exp hg
    | none =>
      rw [hx] at h
      cases hrec : normalFrom rest with
      | none => rw [hrec] at h; exact Option.noConfusion h
      | some q =>
        obtain ⟨g', n'⟩ := q
        rw [hrec] at h
        injection h with h
        have hn : n = n' := (congrArg Prod.snd h).symm
        rw [hn]
        exact normalFrom_has_exp rest g' n' hrec

/-! ### Claim theorems -/

/-- C1: for any report text in which the three micrOMEGAs patterns find
exactly the matches of the stub relic-density report — the two-line
`relic density` / `Omega = 1.23e-01` pattern and the proton/neutron
SI/SD lines, amid any surrounding text that adds no other match —
parsing succeeds (no warnings) and re-encoding yields a Data Block named
`"DM"` whose entries are exactly
`{1: 0.123, 2: 4.5e-9, 3: 6.7e-10, 4: 8.9e-9, 5: 1.0e-9}`. -/
theorem C1_stub_roundtrip (t : List Char)
    (ho : reFindall matchOmegaAt t = [("1.23e-01").data])
    (hp : reFindall matchProtonAt t = [(("4.5e-9").data, ("6.7e-10").data)])
    (hn : reFindall matchNeutronAt t = [(("8.9e-9").data, ("1.0e-9").data)]) :
    MicromegasOutput.parse_output t =
      .ok (⟨123/1000, 45/10000000000, 67/100000000000, 89/10000000000, 1/1000000000⟩, []) ∧
    MicromegasOutput.to_slha_block
        ⟨123/1000, 45/10000000000, 67/100000000000, 89/10000000000, 1/1000000000⟩ =
      { name := "DM"
        head_comment := "calculated by micrOMEGAs"
        entries := [(1, 123/1000), (2, 45/10000000000), (3, 67/100000000000),
                    (4, 89/10000000000), (5, 1/1000000000)]
        comments := [(1, "OmegaDM h^2"), (2, "proton SI [pb]"), (3, "proton SD [pb]"),
                     (4, "neutron SI [pb]"), (5, "neutron SD [pb]")] } := by
  have e1 : (123/1000 : ℚ) = mkRat 123 1000 := by rw [mkRat_eq_q]; norm_num
  have e2 : (45/10000000000 : ℚ) = mkRat 45 10000000000 := by rw [mkRat_eq_q]; norm_num
  have e3 : (67/100000000000 : ℚ) = mkRat 67 100000000000 := by rw [mkRat_eq_q]; norm_num
  have e4 : (89/10000000000 : ℚ) = mkRat 89 10000000000 := by rw [mkRat_eq_q]; norm_num
  have e5 : (1/1000000000 : ℚ) = mkRat 1 1000000000 := by rw [mkRat_eq_q]; norm_num
  rw [e1, e2, e3, e4, e5]
  constructor
  · unfold MicromegasOutput.parse_output
    rw [ho, hp, hn]
    decide
  · decide

/-- C1 witness: the specification's stub relic-density report satisfies
the three pattern hypotheses, so parsing and re-encoding produce the
claimed `"DM"` block. -/
theorem C1_stub_roundtrip_witness :
    MicromegasOutput.parse_output stubRelicReport =
      .ok (⟨123/1000, 45/10000000000, 67/100000000000, 89/10000000000, 1/1000000000⟩, []) ∧
    MicromegasOutput.to_slha_block
        ⟨123/1000, 45/10000000000, 67/100000000000, 89/10000000000, 1/1000000000⟩ =
      { name := "DM"
        head_comment := "calculated by micrOMEGAs"
        entries := [(1, 123/1000), (2, 45/10000000000), (3, 67/100000000000),
                    (4, 89/10000000000), (5, 1/1000000000)]
        comments := [(1, "OmegaDM h^2"), (2, "proton SI [pb]"), (3, "proton SD [pb]"),
                     (4, "neutron SI [pb]"), (5, "neutron SD [pb]")] } :=
  C1_stub_roundtrip stubRelicReport (by decide) (by decide) (by decide)

/-- C5: if the Omega pattern has two or more matches (and the
proton/neutron patterns one each, all five numbers convertible), parsing
does NOT fail: it returns a record built from the FIRST Omega match in
document order, with exactly the duplicate-field warning emitted. -/
theorem C5_first_of_multiple (t : List Char) (x y : List Char) (r : List (List Char))
    (ps ns : List Char × List Char) (qx q2 q3 q4 q5 : ℚ)
    (ho : reFindall matchOmegaAt t = x :: y :: r)
    (hp : reFindall matchProtonAt t = [ps])
    (hn : reFindall matchNeutronAt t = [ns])
    (hx : pyfloat x = some qx) (h2 : pyfloat ps.1 = some q2) (h3 : pyfloat ps.2 = some q3)
    (h4 : pyfloat ns.1 = some q4) (h5 : pyfloat ns.2 = some q5) :
    MicromegasOutput.parse_output t =
      .ok (⟨qx, q2, q3, q4, q5⟩,
           ["Multiple omega_DM found in output; first is used."]) := by
  obtain ⟨p1, p2⟩ := ps
  obtain ⟨n1, n2⟩ := ns
  unfold MicromegasOutput.parse_output
  rw [ho, hp, hn]
  simp only [check_result, floatE, hx, h2, h3, h4, h5, Option.toList, bind,
    Except.bind, List.nil_append, List.append_nil]
  rfl

/-- C5 witness: a report with two distinct `Omega = <num>` occurrences
parses successfully, the first (`1.0e-1`) winning. -/
theorem C5_first_of_multiple_witness :
    MicromegasOutput.parse_output doubleOmegaReport =
      .ok (⟨mkRat 1 10, mkRat 9 2000000000, mkRat 67 100000000000,
            mkRat 89 10000000000, mkRat 1 1000000000⟩,
           ["Multiple omega_DM found in output; first is used."]) :=
  C5_first_of_multiple doubleOmegaReport (("1.0e-1").data) (("2.0e-1").data) []
    ((("4.5e-9").data, ("6.7e-10").data)) ((("8.9e-9").data, ("1.0e-9").data))
    (mkRat 1 10) (mkRat 9 2000000000) (mkRat 67 100000000000)
    (mkRat 89 10000000000) (mkRat 1 1000000000)
    (by decide) (by decide) (by decide) (by decide) (by decide)
    (by decide) (by decide) (by decide)

/-- C2: every successfully parsed magnetic-moment report satisfies
`1L+2L_no_resum = 1L_no_resum + 2L_no_resum`, and
`delta_mu = 1 / (tb_cor / 1L_no_resum + 1) - 1` computed in that
operation order (exact rational arithmetic; the embedding computes the
same expression), where `tb_cor` is the `"TANBETA CORRECTION"` section's
value under the long label and `1L_no_resum` the unlabeled value of
`"FULL 1L WITHOUT TANBETA RESUMMATION"` — with no sign restriction on
`1L_no_resum`. -/
theorem C2_derived_fields (t : List Char) (rec : GM2Record) (w : List String)
    (bl : Blocks) (tb : ℚ)
    (hp : GM2CalcOutput.parse_output t = .ok (rec, w))
    (hb : collectBlocks t = .ok bl)
    (htb : sectionVal bl "TANBETA CORRECTION"
      "amu(1L) * (1 / (1 + Delta_mu) - 1) =" = some tb) :
    rec.amu_1L2L_no_resum = rec.amu_1L_no_resum + rec.amu_2L_no_resum ∧
    rec.delta_mu = 1 / (tb / rec.amu_1L_no_resum + 1) - 1 := by
  unfold GM2CalcOutput.parse_output at hp
  obtain ⟨⟨best, w1⟩, hbest, hp⟩ := exceptBind_ok hp
  obtain ⟨bl', hbl', hp⟩ := exceptBind_ok hp
  rw [hb] at hbl'
  injection hbl' with hbl'
  subst hbl'
  obtain ⟨v12, hv12, hp⟩ := exceptBind_ok hp
  obtain ⟨v12u, hv12u, hp⟩ := exceptBind_ok hp
  obtain ⟨a1L, ha1L, hp⟩ := exceptBind_ok hp
  obtain ⟨a1Lnr, ha1Lnr, hp⟩ := exceptBind_ok hp
  obtain ⟨vwhn, hwhn, hp⟩ := exceptBind_ok hp
  obtain ⟨vwhl, hwhl, hp⟩ := exceptBind_ok hp
  obtain ⟨vbhl, hbhl, hp⟩ := exceptBind_ok hp
  obtain ⟨vbhr, hbhr, hp⟩ := exceptBind_ok hp
  obtain ⟨vblr, hblr, hp⟩ := exceptBind_ok hp
  obtain ⟨a2L, ha2L, hp⟩ := exceptBind_ok hp
  obtain ⟨a2Lnr, ha2Lnr, hp⟩ := exceptBind_ok hp
  obtain ⟨a2Lph, ha2Lph, hp⟩ := exceptBind_ok hp
  obtain ⟨a2Lf, ha2Lf, hp⟩ := exceptBind_ok hp
  obtain ⟨a2La, ha2La, hp⟩ := exceptBind_ok hp
  obtain ⟨tb', htb', hp⟩ := exceptBind_ok hp
  obtain ⟨q1, hq1, hp⟩ := exceptBind_ok hp
  obtain ⟨q2, hq2, hp⟩ := exceptBind_ok hp
  have htbeq : tb' = tb := by
    have hsv := getKey_ok htb'
    rw [htb] at hsv
    injection hsv with hsv
    exact hsv.symm
  subst htbeq
  injection hp with hp
  have hrec : rec = ⟨v12, v12u, a1L, a1Lnr, vwhn, vwhl, vbhl, vbhr, vblr, a2L,
      a2Lnr, a2Lph, a2Lf, a2La, ratAdd a1Lnr a2Lnr, ratSub q2 1⟩ :=
    (congrArg Prod.fst hp).symm
  subst hrec
  obtain ⟨hnz, hq1v⟩ := pydiv_ok hq1
  obtain ⟨hnz2, hq2v⟩ := pydiv_ok hq2
  constructor
  · exact ratAdd_eq a1Lnr a2Lnr
  · show ratSub q2 1 = _
    rw [ratSub_eq, hq2v, ratAdd_eq, hq1v]

/-- C2 witness: the full stub magnetic-moment report — whose
`1L_no_resum` value `-2.0e-10` is negative — parses to a record
satisfying both derived-field identities. -/
theorem C2_derived_fields_witness :
    gm2StubRecord.amu_1L_no_resum < 0 ∧
    (gm2StubRecord.amu_1L2L_no_resum =
        gm2StubRecord.amu_1L_no_resum + gm2StubRecord.amu_2L_no_resum ∧
      gm2StubRecord.delta_mu =
        1 / (mkRat (-5) 10000000000 / gm2StubRecord.amu_1L_no_resum + 1) - 1) :=
  ⟨by decide,
   C2_derived_fields gm2StubReport gm2StubRecord [] gm2StubBlocks
     (mkRat (-5) 10000000000) (by decide) (by decide) (by decide)⟩

/-- C3 (code_bug evidence): when an invoked external process returns the
non-zero exit status 2, the driver aborts at once — the result does not
depend on any later stage — and logs the non-zero code; but because
`run_process` calls the bare `exit()` (not `exit(1)`), the driver process
itself terminates with exit status 0, NOT a non-zero status as the claim
states. -/
theorem C3_driver_exits_zero (later : List ExtProc) (out0 out1 : List Char) :
    runPipeline (⟨0, out0⟩ :: ⟨2, out1⟩ :: later) =
      .error ⟨0, [.errorL "Run failed with exit code 2.", .infoL "process.__dict__"]⟩ := by
  rfl

/-- C4 (code_bug evidence): a relic-density report lacking the neutron
line is aborted with `exit(1)` and no partial record — but the fatal
message names the PROTON field (`check_result` is called with title
`"proton"` for the neutron pattern); and a magnetic-moment report lacking
the best-value line is aborted with a message attributing the miss to
micrOMEGAs output (the source hardcoded in `check_result`), not to the
magnetic-moment calculator. -/
theorem C4_misattributed_errors :
    MicromegasOutput.parse_output noNeutronReport =
      .error (.systemExit 1 "Cannot find proton in micrOMEGAs output.") ∧
    GM2CalcOutput.parse_output noAmuReport =
      .error (.systemExit 1 "Cannot find 1L+2L in micrOMEGAs output.") := by
  constructor
  · decide
  · decide

/-- C6 (code_bug evidence): on a report with `Omega = 1.23d-01`, the
`RE_OMEGA` pattern does match the `d`-notation number, but Python's
`float()` does not accept a `d` exponent, so parsing raises `ValueError`
and the run dies instead of producing `omega_h2 = 0.123`. -/
theorem C6_d_exponent_fatal :
    reFindall matchOmegaAt dNotationReport = [("1.23d-01").data] ∧
    MicromegasOutput.parse_output dNotationReport =
      .error (.valueError (("1.23d-01").data)) := by
  constructor
  · decide
  · decide

/-- C7 (counterexample): the claim says a report in which a blank line
separates the `relic density` line from the `Omega = <number>` line does
not yield a match; but `$\s+^` in `RE_OMEGA` matches across any number of
blank lines, so this text DOES yield a match. -/
theorem C7_blank_line_matches :
    reFindall matchOmegaAt (("relic density\n\nOmega = 1.0e-1").data) =
      [("1.0e-1").data] := by
  decide


/-- C7 amended: the two-line relic-density pattern matches whenever the
`relic density` line is separated from the `Omega = <number>` line by ANY
positive number of newlines — i.e. on the immediately next line (one
newline) or after one or more blank lines — because `$\s+^` consumes any
whitespace run ending at a line start. -/
theorem C7_amended_blank_lines (k : Nat) (hk : 1 ≤ k) :
    reFindall matchOmegaAt
      (("relic density").data ++ (List.replicate k '\n' ++ ("Omega = 1.0e-1").data)) =
      [("1.0e-1").data] := by
  obtain ⟨j, rfl⟩ : ∃ j, k = j + 1 := ⟨k - 1, (Nat.succ_pred_eq_of_pos hk).symm⟩
  have hm : matchOmegaAt
      (("relic density").data ++ (List.replicate (j + 1) '\n' ++ ("Omega = 1.0e-1").data)) =
      some (("1.0e-1").data, []) := by
    unfold matchOmegaAt
    rw [dropLit_append]
    change (match wsToLastNL
        (lineSpan (List.replicate (j + 1) '\n' ++ ("Omega = 1.0e-1").data)).2 with
      | none => none
      | some r3 => omegaOnLine r3) = some (("1.0e-1").data, [])
    rw [lineSpan_snd_nl, wsToLastNL_repl j _ (by decide) (by decide)]
    decide
  unfold reFindall
  rw [findallFuel_succ, hm]
  change ("1.0e-1").data ::
    findallFuel matchOmegaAt
      (("relic density").data ++
        (List.replicate (j + 1) '\n' ++ ("Omega = 1.0e-1").data)).length [] =
    [("1.0e-1").data]
  rw [findallFuel_omega_nil]

/-- C7 amended witness: with two newlines (one blank line) in between,
the pattern still finds `1.0e-1`. -/
theorem C7_amended_blank_lines_witness :
    reFindall matchOmegaAt
      (("relic density").data ++ (List.replicate 2 '\n' ++ ("Omega = 1.0e-1").data)) =
      [("1.0e-1").data] :=
  C7_amended_blank_lines 2 (by decide)

/-- C8 (counterexample): the claim says a line beginning with an
underscore never starts a section; but `RE_START_WITH_ALPHA_NUM` is `^\w`
and `\w` includes the underscore, so `"_foo"` does start a section (named
`"FOO"` after the strip/upper/filter transform), although `'_'` is
neither a letter nor a digit. -/
theorem C8_underscore_starts_section :
    startsSection (("_foo").data) = true ∧
    pyAlpha '_' = false ∧ pyDigit '_' = false ∧
    collectBlocks (("_foo\n   1.0e-9").data) =
      .ok [("FOO", [("NO KEY", 1 / 1000000000)])] := by
  refine ⟨rfl, rfl, rfl, ?_⟩
  rw [show ((1 : ℚ) / 1000000000) = mkRat 1 1000000000 by
    rw [mkRat_eq_q]; norm_num]
  decide

/-- C8 amended: a line starts a new section exactly when its first
character is a WORD character — a letter, a digit, OR an underscore
(`^\w`) — and on such a line the loop switches to the section named by
uppercasing, trimming and removing every character that is not an
uppercase letter, digit or space, registering that (empty) section. -/
theorem C8_amended_word_start (line : List Char) (st : GMSt) :
    (startsSection line = true ↔
      ∃ c rest, line = c :: rest ∧
        (pyAlpha c = true ∨ pyDigit c = true ∨ c = '_')) ∧
    (startsSection line = true →
      stepLine st line =
        .ok ⟨sectionName line, updAssoc (sectionName line) [] st.blocks⟩) := by
  constructor
  · cases line with
    | nil => simp [startsSection]
    | cons c rest =>
      simp only [startsSection, pyWord, Bool.or_eq_true, decide_eq_true_eq]
      constructor
      · intro h
        exact ⟨c, rest, rfl, by tauto⟩
      · rintro ⟨c', rest', heq, h⟩
        cases heq
        tauto
  · intro h
    simp [stepLine, h]

/-- C8 amended witness: the underscore-led line `"_foo"` starts the
section named `"FOO"`. -/
theorem C8_amended_word_start_witness :
    stepLine ⟨"", []⟩ (("_foo").data) = .ok ⟨"FOO", [("FOO", [])]⟩ := by
  have h := (C8_amended_word_start (("_foo").data) ⟨"", []⟩).2 (by decide)
  rw [h]
  decide

/-- C9: within one named section of a magnetic-moment report (a section
header followed by lines that start no new section), when two lines carry
the same key — a shared label, or both unlabeled via the `"NO KEY"`
sentinel — the section's recorded value for that key is the one from the
LAST such line in document order: each assignment overwrites the previous
one. -/
theorem C9_last_assignment_wins (header : List Char) (body : List (List Char))
    (st0 stF : GMSt) (k : String) (v1 v2 : ℚ)
    (es1 es2 es3 : List (String × ℚ))
    (hh : startsSection header = true)
    (hne : sectionName header ≠ "")
    (hbodyNS : ∀ l ∈ body, startsSection l = false)
    (hrun : runLines (header :: body) st0 = .ok stF)
    (hsplit : body.filterMap lineEntryV =
      es1 ++ ((k, v1) :: (es2 ++ ((k, v2) :: es3))))
    (hlast : ∀ e ∈ es3, e.1 ≠ k) :
    sectionVal stF.blocks (sectionName header) k = some v2 := by
  obtain ⟨st1, hstep, hrun2⟩ :=
    exceptBind_ok (f := fun s => runLines body s) hrun
  unfold stepLine at hstep
  rw [if_pos hh] at hstep
  have hst1 : st1 = ⟨sectionName header, updAssoc (sectionName header) [] st0.blocks⟩ := by
    injection hstep with h
    exact h.symm
  have hbody := runBody_section hne body st1 [] stF
    (by rw [hst1]) (by rw [hst1]; exact findA_updAssoc_self _ _ _) hbodyNS hrun2
  unfold sectionVal
  rw [hbody.2, hsplit, Option.some_bind, List.foldl_append, List.foldl_cons,
    List.foldl_append, List.foldl_cons]
  rw [foldl_upd_skip es3 _ k hlast]
  exact findA_updAssoc_self _ _ _

/-- C9 witness: in section `"SEC ONE"`, two lines labeled `a` store
`1.0e-9` then `2.0e-9`; the recorded value is the second. -/
theorem C9_last_assignment_wins_witness :
    sectionVal [("SEC ONE", [("a", mkRat 2 1000000000)])] "SEC ONE" "a" =
      some (mkRat 2 1000000000) :=
  C9_last_assignment_wins (("sec one").data)
    [("   a   1.0e-9").data, ("   a   2.0e-9").data]
    ⟨"", []⟩ ⟨"SEC ONE", [("SEC ONE", [("a", mkRat 2 1000000000)])]⟩
    "a" (mkRat 1 1000000000) (mkRat 2 1000000000) [] [] []
    (by decide) (by decide) (by decide) (by decide) (by decide) (by simp)

/-- C10: every number recognized by the GM2Calc patterns carries an
explicit `e`/`E` exponent — for the raw NUM scanner, the best-value
pattern (both captures) and both section-line patterns — and the
plain-decimal line `"sum 0.5"` matches neither section-line pattern and
leaves the loop state unchanged (tried as a content line). -/
theorem C10_mandatory_exponent :
    (∀ s n r : List Char, gm2Num s = some (n, r) → ('e' ∈ n ∨ 'E' ∈ n)) ∧
    (∀ (s r : List Char) (p : List Char × List Char), match2LAt s = some (p, r) →
      (('e' ∈ p.1 ∨ 'E' ∈ p.1) ∧ ('e' ∈ p.2 ∨ 'E' ∈ p.2))) ∧
    (∀ l n : List Char, matchNumLine l = some n → ('e' ∈ n ∨ 'E' ∈ n)) ∧
    (∀ l g n : List Char, matchNormalLine l = some (g, n) → ('e' ∈ n ∨ 'E' ∈ n)) ∧
    matchNumLine (("sum 0.5").data) = none ∧
    matchNormalLine (("sum 0.5").data) = none ∧
    (∀ st : GMSt, stepLine st ((" sum 0.5").data) = .ok st) := by
  refine ⟨fun s n r h => gm2Num_has_exp h, ?_, ?_, ?_, by decide, by decide, ?_⟩
  · intro s r p h
    unfold match2LAt at h
    obtain ⟨r1, hd1, h⟩ := optBind_some h
    obtain ⟨r3, hd3, h⟩ := optBind_some h
    obtain ⟨⟨n1, r5⟩, hg1, h⟩ := optBind_some h
    obtain ⟨r7, hd7, h⟩ := optBind_some h
    obtain ⟨⟨n2, r9⟩, hg2, h⟩ := optBind_some h
    injection h with h
    have hp : p = (n1, n2) := (congrArg Prod.fst h).symm
    rw [hp]
    exact ⟨gm2Num_has_exp hg1, gm2Num_has_exp hg2⟩
  · intro l n h
    unfold matchNumLine at h
    obtain ⟨⟨n', r'⟩, hg, h⟩ := optBind_some h
    injection h with h
    rw [← h]
    exact gm2Num_has_exp hg
  · intro l g n h
    unfold matchNormalLine at h
    cases hnf : normalFrom (l.dropWhile pySpace) with
    | some q =>
      obtain ⟨g', n'⟩ := q
      rw [hnf] at h
      injection h with h
      have hn : n = n' := (congrArg Prod.snd h).symm
      rw [hn]
      exact normalFrom_has_exp _ g' n' hnf
    | none =>
      rw [hnf] at h
      cases hrev : (l.takeWhile pySpace).reverse with
      | nil => rw [hrev] at h; exact Option.noConfusion h
      | cons w1 rest =>
        cases rest with
        | nil => rw [hrev] at h; exact Option.noConfusion h
        | cons w2 rest2 =>
          rw [hrev] at h
          cases hg : gm2Num (l.dropWhile pySpace) with
          | none => simp [hg] at h
          | some q =>
            obtain ⟨nn, rr⟩ := q
            simp only [hg, Option.map_some'] at h
            injection h with h
            have hn : n = nn := (congrArg Prod.snd h).symm
            rw [hn]
            exact gm2Num_has_exp hg
  · intro st
    unfold stepLine
    rw [if_neg (by decide)]
    by_cases hst : st.tag = ""
    · rw [if_neg (by simp [hst])]
    · rw [if_pos hst]
      rfl

/-- C10 witness: the number `1.0e-9`, as captured by the GM2Calc NUM
scanner, contains the exponent marker `e`. -/
theorem C10_mandatory_exponent_witness :
    'e' ∈ (("1.0e-9").data) ∨ 'E' ∈ (("1.0e-9").data) :=
  C10_mandatory_exponent.1 (("1.0e-9").data) (("1.0e-9").data) [] (by decide)

end MSSMGen
